import Mathlib

/-!
# Verification of the multi-agent consensus engine

This file embeds `src/consensus/consensus_engine.py` (class `ConsensusEngine`)
and proves the specified properties of its clustering, consensus-building and
rejection behaviour.

Modelling conventions:
* Python dictionaries become structures whose optional keys are `Option`
  fields; `dict.get(k, d)` becomes `Option.getD`.
* Python `float` confidences and thresholds are modelled as exact rationals
  (`ℚ`); `round(x, 2)` is modelled as exact rounding of the rational to the
  nearest multiple of 1/100.
* The in-place updates `build_consensus` performs on its input findings
  (`finding["source_agent"] = ...`, `finding["rejection_reason"] = ...`) are
  modelled by an explicit post-state function, `build_consensus_post`.
* Clusters are computed on indices into the flattened finding list (mirroring
  the `used_indices` set of the Python code) and then mapped back to
  finding values.
-/

/-- The `target` sub-dictionary of a finding: `file_path`, `start_line` and
`end_line` keys, each possibly absent.  A missing `target` key behaves like
the empty dictionary `{}`: all lookups return `None`, which is the
`Inhabited` default of this structure. -/
structure Target where
  file_path : Option String
  start_line : Option Int
  end_line : Option Int
deriving DecidableEq, Inhabited

/-- The `consensus_info` dictionary attached by `_build_consensus_finding`. -/
structure ConsensusInfo where
  source_agents : List (Option String)
  agreement_count : ℕ
  consensus_confidence : ℚ
  verified : Bool
deriving DecidableEq, Inhabited

/-- A finding dictionary, with exactly the keys the consensus engine reads or
writes.  Absent keys are `none` (or `[]` for `cwe`, `""` for
`finding_description`, matching the defaults `finding.get("cwe", [])` and
`finding.get("finding_description", "")` used by the code). -/
structure Finding where
  finding_description : String
  severity : Option String
  cwe : List String
  target : Option Target
  confidence : Option ℚ
  source_agent : Option String
  rejection_reason : Option String
  consensus_info : Option ConsensusInfo
deriving DecidableEq, Inhabited

/-- One element of the `agent_results` input list: the engine reads
`result.get("agent", "unknown")` and `result.get("findings", [])`, so a
missing `findings` key is the empty list and a missing `agent` key is
`none` (read back as `"unknown"`). -/
structure AgentResult where
  agent : Option String
  findings : List Finding
deriving DecidableEq, Inhabited

/-- The `statistics` sub-dictionary of the value `build_consensus` returns. -/
structure ConsensusStats where
  total_findings : ℕ
  consensus_count : ℕ
  rejected_count : ℕ
deriving DecidableEq, Inhabited

/-- The dictionary returned by `ConsensusEngine.build_consensus`. -/
structure ConsensusResult where
  consensus_findings : List Finding
  rejected_findings : List Finding
  total_agents : ℕ
  agreement_threshold : ℕ
  statistics : ConsensusStats
deriving DecidableEq, Inhabited

/-- The constructor `ConsensusEngine.__init__(self, min_agreement=2, similarity_threshold=0.85)`:
the two constructor parameters stored on the engine. -/
structure ConsensusEngine where
  min_agreement : ℕ
  similarity_threshold : ℚ
deriving DecidableEq, Inhabited

/-- The lookup `finding.get("confidence", 0.5)`: the confidence with its default. -/
def Finding.conf (f : Finding) : ℚ := f.confidence.getD (1 / 2)

/-- Python `round(x, 2)`, modelled as exact rounding of the rational to the
nearest multiple of 1/100 (the float tie-breaking of CPython is not
modelled; no claim depends on a tie). -/
def round2 (q : ℚ) : ℚ := (round (q * 100) : ℚ) / 100

/-- Python `str.split()` (no separator argument): split on runs of
whitespace, dropping empty fragments; `acc` holds the characters of the
word currently being read, in reverse.  Implemented by structural
recursion over the character list so that it evaluates by kernel
reduction. -/
def pySplitAux (acc : List Char) : List Char → List String
  | [] => if acc.isEmpty then [] else [String.mk acc.reverse]
  | c :: cs =>
    if c.isWhitespace then
      (if acc.isEmpty then pySplitAux [] cs
       else String.mk acc.reverse :: pySplitAux [] cs)
    else pySplitAux (c :: acc) cs

/-- Python `desc.lower().split()`: lower-case the description, split it on runs of
whitespace, and form the set of words.  Lowering character by character
before splitting equals lowering the whole string first, since `toLower`
maps whitespace to itself. -/
def pyWords (s : String) : Finset String :=
  (pySplitAux [] (s.data.map Char.toLower)).toFinset

/-- First check of `_are_similar`: both `cwe` lists non-empty (Python
truthiness of the two sets) and Jaccard overlap `|∩| / |∪| > 0.5`. -/
def cweSignal (f1 f2 : Finding) : Bool :=
  decide (f1.cwe.toFinset ≠ ∅) && decide (f2.cwe.toFinset ≠ ∅) &&
    decide (((f1.cwe.toFinset ∩ f2.cwe.toFinset).card : ℚ)
      / ((f1.cwe.toFinset ∪ f2.cwe.toFinset).card : ℚ) > 1 / 2)

/-- Second check of `_are_similar`: `target1.get("file_path") ==
target2.get("file_path")` (two missing paths compare equal) and the start
lines (`target.get("start_line", 0)`) differ by strictly less than 5. -/
def locSignal (f1 f2 : Finding) : Bool :=
  decide ((f1.target.getD default).file_path = (f2.target.getD default).file_path) &&
    decide (((f1.target.getD default).start_line.getD 0
      - (f2.target.getD default).start_line.getD 0).natAbs < 5)

/-- Third check of `_are_similar`: strictly more than 3 common lower-cased
description words. -/
def descSignal (f1 f2 : Finding) : Bool :=
  decide (3 < (pyWords f1.finding_description ∩ pyWords f2.finding_description).card)

/-- The method `ConsensusEngine._are_similar`.  Each check of the Python method returns
`True` on success and otherwise falls through to the next one, so the method
is the disjunction of the three signals.  The engine argument is the Python
`self` receiver; the method body never reads it (in particular it never
reads `similarity_threshold`). -/
def are_similar (e : ConsensusEngine) (f1 f2 : Finding) : Bool :=
  cweSignal f1 f2 || locSignal f1 f2 || descSignal f1 f2

/-- The inner loop of `_cluster_findings` for seed index `i`: scan every
index `j` of the input in order, skip indices already used and the seed
itself, and collect those whose finding is similar to the seed `fs[i]`.
An index added during the scan is smaller than all later candidates, so
membership tests against the evolving `used_indices` set reduce to a test
against the set as it stood when the scan started. -/
def innerScan (e : ConsensusEngine) (fs : List Finding) (used : List ℕ) (i : ℕ) :
    List ℕ :=
  (List.range fs.length).filter
    (fun j => decide (j ∉ used) && decide (j ≠ i) &&
      are_similar e (fs.getD i default) (fs.getD j default))

/-- The outer loop of `_cluster_findings`, on indices: `outer` is the list
of outer-loop indices still to visit (initially all of `range fs.length`),
`used` the indices already assigned to a cluster.  A still-unused index
opens a new cluster seeded with it and absorbs all unused similar indices. -/
def clusterAux (e : ConsensusEngine) (fs : List Finding) :
    List ℕ → List ℕ → List (List ℕ)
  | [], _ => []
  | i :: rest, used =>
    if i ∈ used then clusterAux e fs rest used
    else
      (i :: innerScan e fs used i) ::
        clusterAux e fs rest (used ++ i :: innerScan e fs used i)

/-- The method `_cluster_findings`, restated as clusters of indices into the input list. -/
def clusterIndices (e : ConsensusEngine) (fs : List Finding) : List (List ℕ) :=
  clusterAux e fs (List.range fs.length) []

/-- The method `ConsensusEngine._cluster_findings`: the clusters of finding values. -/
def cluster_findings (e : ConsensusEngine) (fs : List Finding) :
    List (List Finding) :=
  (clusterIndices e fs).map (fun c => c.map (fun i => fs.getD i default))

/-- Python `max(cluster, key=lambda f: f.get("confidence", 0.5))`: a fold
replacing the current best only on a strictly larger key, so the first
maximal element of the iteration wins. -/
def pyMaxAux (best : Finding) : List Finding → Finding
  | [] => best
  | f :: rest => pyMaxAux (if best.conf < f.conf then f else best) rest

/-- The method `ConsensusEngine._build_consensus_finding`: copy the highest-confidence
member of the cluster and attach the `consensus_info` record.  Python `max`
raises on an empty sequence; the clusters produced by `_cluster_findings`
are always non-empty, and the unreachable empty case returns a default
value here.  The engine argument is the unread `self` receiver. -/
def build_consensus_finding (e : ConsensusEngine) : List Finding → Finding
  | [] => default
  | f :: rest =>
    { pyMaxAux f rest with
      consensus_info := some
        { source_agents := (f :: rest).map (fun g => g.source_agent)
          agreement_count := (f :: rest).length
          consensus_confidence :=
            round2 (((f :: rest).map Finding.conf).sum / ((f :: rest).length : ℚ))
          verified := true } }

/-- The string `f"Only {len(cluster)} agent(s) agreed"`. -/
def rejectionReason (n : ℕ) : String := "Only " ++ toString n ++ " agent(s) agreed"

/-- The update `finding["rejection_reason"] = f"Only {len(cluster)} agent(s) agreed"`:
the update applied to each member of an under-threshold cluster. -/
def markRejected (n : ℕ) (f : Finding) : Finding :=
  { f with rejection_reason := some (rejectionReason n) }

/-- The per-cluster decision loop of `build_consensus`: a cluster with at
least `min_agreement` members yields one consensus finding, a smaller
cluster yields one rejected finding per member; both output lists keep
cluster order (and, inside a rejected cluster, member order), exactly as
the appends of the Python loop do. -/
def consensusLoop (e : ConsensusEngine) :
    List (List Finding) → List Finding × List Finding
  | [] => ([], [])
  | c :: rest =>
    let pair := consensusLoop e rest
    if e.min_agreement ≤ c.length then
      (build_consensus_finding e c :: pair.1, pair.2)
    else
      (pair.1, c.map (markRejected c.length) ++ pair.2)

/-- The collection loop of `build_consensus`: every finding of every agent
result gets `source_agent := result.get("agent", "unknown")` written into
it, and the findings are flattened in input order into `all_findings`. -/
def taggedFindings (agent_results : List AgentResult) : List Finding :=
  agent_results.flatMap (fun r =>
    r.findings.map (fun f => { f with source_agent := some (r.agent.getD "unknown") }))

/-- The method `ConsensusEngine.build_consensus`: the returned dictionary. -/
def build_consensus (e : ConsensusEngine) (agent_results : List AgentResult) :
    ConsensusResult :=
  let all_findings := taggedFindings agent_results
  let pair := consensusLoop e (cluster_findings e all_findings)
  { consensus_findings := pair.1
    rejected_findings := pair.2
    total_agents := agent_results.length
    agreement_threshold := e.min_agreement
    statistics :=
      { total_findings := all_findings.length
        consensus_count := pair.1.length
        rejected_count := pair.2.length } }

/-- Post-state of the `k`-th flattened input finding after a run of
`build_consensus`: the `source_agent` tag is already applied, and when `k`
lies in a cluster below the agreement threshold the in-place
`rejection_reason` write also hits the input dictionary. -/
def postFinding (e : ConsensusEngine) (all : List Finding)
    (clusters : List (List ℕ)) (k : ℕ) : Finding :=
  match clusters.find? (fun c => decide (k ∈ c) && decide (c.length < e.min_agreement)) with
  | some c => markRejected c.length (all.getD k default)
  | none => all.getD k default

/-- The post-state of all input findings (flattened in input order) after
`build_consensus` returns: the Python code mutates the input finding
dictionaries in place, which this explicit state-passing function renders
over the flattening of the input. -/
def build_consensus_post (e : ConsensusEngine) (agent_results : List AgentResult) :
    List Finding :=
  let all := taggedFindings agent_results
  (List.range all.length).map (postFinding e all (clusterIndices e all))

/-- Erase the two fields that `build_consensus` writes into input findings;
used to state which fields a run leaves untouched. -/
def stripEngineFields (f : Finding) : Finding :=
  { f with source_agent := none, rejection_reason := none }

/-- The `agreement_count` recorded in the `consensus_info` of a finding
(0 when absent): accessor used to state the accounting identity. -/
def agreementCount (f : Finding) : ℕ :=
  (f.consensus_info.map (fun i => i.agreement_count)).getD 0

/-! ## Symmetry of the similarity predicate -/

lemma cweSignal_symm (a b : Finding) : cweSignal a b = cweSignal b a := by
  unfold cweSignal
  rw [Finset.inter_comm, Finset.union_comm,
    Bool.and_comm (decide (a.cwe.toFinset ≠ ∅)) (decide (b.cwe.toFinset ≠ ∅))]

lemma locSignal_symm (a b : Finding) : locSignal a b = locSignal b a := by
  unfold locSignal
  have h1 : ((a.target.getD default).start_line.getD 0
        - (b.target.getD default).start_line.getD 0).natAbs
      = ((b.target.getD default).start_line.getD 0
        - (a.target.getD default).start_line.getD 0).natAbs := by
    omega
  rw [h1]
  congr 1
  exact decide_eq_decide.mpr eq_comm

lemma descSignal_symm (a b : Finding) : descSignal a b = descSignal b a := by
  unfold descSignal
  rw [Finset.inter_comm]

/-- C6: `_are_similar` is symmetric: each of the three signals (weakness
category Jaccard overlap, identical file path with nearby start lines,
common description words) is commutative in its two arguments, hence so is
their disjunction. -/
theorem C6_are_similar_symm (e : ConsensusEngine) (a b : Finding) :
    are_similar e a b = are_similar e b a := by
  unfold are_similar
  rw [cweSignal_symm, locSignal_symm, descSignal_symm]

/-! ## The clusters partition the input -/

lemma mem_innerScan {e : ConsensusEngine} {fs : List Finding} {used : List ℕ}
    {i j : ℕ} :
    j ∈ innerScan e fs used i ↔
      j < fs.length ∧ j ∉ used ∧ j ≠ i ∧
        are_similar e (fs.getD i default) (fs.getD j default) = true := by
  simp [innerScan, List.mem_filter, List.mem_range, and_assoc]

lemma innerScan_nodup (e : ConsensusEngine) (fs : List Finding) (used : List ℕ)
    (i : ℕ) : (innerScan e fs used i).Nodup :=
  List.Nodup.filter _ (List.nodup_range _)

lemma clusterAux_count (e : ConsensusEngine) (fs : List Finding) :
    ∀ (outer used : List ℕ), outer.Nodup →
      (∀ j, j < fs.length → j ∉ outer → j ∈ used) →
      ∀ x, ((clusterAux e fs outer used).flatten).count x
        = if x ∈ outer ∧ x ∉ used then 1 else 0
  | [], used, _, _, x => by simp [clusterAux]
  | i :: rest, used, hnd, hcomp, x => by
    have hir : i ∉ rest := (List.nodup_cons.mp hnd).1
    have hndr : rest.Nodup := (List.nodup_cons.mp hnd).2
    by_cases hi : i ∈ used
    · have hcomp' : ∀ j, j < fs.length → j ∉ rest → j ∈ used := by
        intro j hj hjr
        by_cases hji : j = i
        · exact hji ▸ hi
        · exact hcomp j hj (by simp [List.mem_cons, hji, hjr])
      have ih := clusterAux_count e fs rest used hndr hcomp' x
      simp only [clusterAux, if_pos hi]
      rw [ih]
      by_cases hxi : x = i
      · subst hxi
        simp [hir, hi]
      · simp [List.mem_cons, hxi]
    · have hadded_nodup : (i :: innerScan e fs used i).Nodup := by
        rw [List.nodup_cons]
        exact ⟨fun h => (mem_innerScan.mp h).2.2.1 rfl, innerScan_nodup e fs used i⟩
      have hcomp' : ∀ j, j < fs.length →
          j ∉ rest → j ∈ used ++ i :: innerScan e fs used i := by
        intro j hj hjr
        rw [List.mem_append, List.mem_cons]
        by_cases hju : j ∈ used
        · exact Or.inl hju
        · by_cases hji : j = i
          · exact Or.inr (Or.inl hji)
          · exact absurd (hcomp j hj (by simp [List.mem_cons, hji, hjr])) hju
      have ih := clusterAux_count e fs rest (used ++ i :: innerScan e fs used i)
        hndr hcomp' x
      simp only [clusterAux, if_neg hi, List.flatten_cons, List.count_append]
      rw [ih]
      by_cases hxi : x = i
      · subst hxi
        rw [List.count_eq_one_of_mem hadded_nodup (List.mem_cons_self _ _)]
        simp [hir, hi]
      · by_cases hxa : x ∈ innerScan e fs used i
        · have hx := mem_innerScan.mp hxa
          have hxrest : x ∈ rest := by
            have hxouter : x ∈ i :: rest := by
              by_contra hxo
              exact hx.2.1 (hcomp x hx.1 hxo)
            exact (List.mem_cons.mp hxouter).resolve_left hxi
          rw [List.count_eq_one_of_mem hadded_nodup (List.mem_cons_of_mem _ hxa)]
          have hxused' : x ∈ used ++ i :: innerScan e fs used i := by
            simp [List.mem_append, hxa]
          simp [hxused', List.mem_cons, hxrest, hx.2.1]
        · have hxnotmem : x ∉ i :: innerScan e fs used i := by
            simp [List.mem_cons, hxi, hxa]
          rw [List.count_eq_zero_of_not_mem hxnotmem]
          have hused' : (x ∈ used ++ i :: innerScan e fs used i) ↔ x ∈ used := by
            simp [List.mem_append, List.mem_cons, hxi, hxa]
          simp only [List.mem_cons, hused', Nat.zero_add]
          simp [hxi]

lemma clusterIndices_count (e : ConsensusEngine) (fs : List Finding) (x : ℕ) :
    ((clusterIndices e fs).flatten).count x = if x < fs.length then 1 else 0 := by
  unfold clusterIndices
  rw [clusterAux_count e fs (List.range fs.length) [] (List.nodup_range _)
    (fun j hj hjr => absurd (List.mem_range.mpr hj) hjr) x]
  simp [List.mem_range]

lemma clusterIndices_perm (e : ConsensusEngine) (fs : List Finding) :
    ((clusterIndices e fs).flatten).Perm (List.range fs.length) := by
  rw [List.perm_iff_count]
  intro x
  rw [clusterIndices_count]
  by_cases hx : x < fs.length
  · rw [if_pos hx, Eq.comm]
    exact List.count_eq_one_of_mem (List.nodup_range _) (List.mem_range.mpr hx)
  · rw [if_neg hx, Eq.comm]
    exact List.count_eq_zero_of_not_mem (fun h => hx (List.mem_range.mp h))

lemma map_getD_range (l : List Finding) :
    (List.range l.length).map (fun i => l.getD i default) = l := by
  apply List.ext_getElem
  · simp
  · intro i h1 h2
    simp [List.getD_eq_getElem?_getD, List.getElem?_eq_getElem h2]

lemma cluster_findings_flatten_perm (e : ConsensusEngine) (fs : List Finding) :
    ((cluster_findings e fs).flatten).Perm fs := by
  unfold cluster_findings
  rw [← List.map_flatten]
  have h := (clusterIndices_perm e fs).map (fun i => fs.getD i default)
  rw [map_getD_range] at h
  exact h

/-- C2: the clusters returned by `_cluster_findings` partition the input:
at index level the concatenation of all clusters is a permutation of
`range fs.length` (every index appears exactly once, none dropped, none
duplicated), and consequently the concatenation of the finding clusters is
a permutation of the input findings. -/
theorem C2_cluster_partition (e : ConsensusEngine) (fs : List Finding) :
    ((clusterIndices e fs).flatten).Perm (List.range fs.length) ∧
      ((cluster_findings e fs).flatten).Perm fs :=
  ⟨clusterIndices_perm e fs, cluster_findings_flatten_perm e fs⟩

/-! ## The per-cluster decision and the accounting of findings -/

lemma consensusLoop_spec (e : ConsensusEngine) :
    ∀ cl : List (List Finding),
      consensusLoop e cl =
        ((cl.filter (fun c => decide (e.min_agreement ≤ c.length))).map
            (build_consensus_finding e),
         (cl.filter (fun c => decide (c.length < e.min_agreement))).flatMap
            (fun c => c.map (markRejected c.length)))
  | [] => by simp [consensusLoop]
  | c :: rest => by
    have ih := consensusLoop_spec e rest
    by_cases h : e.min_agreement ≤ c.length
    · simp [consensusLoop, ih, List.filter_cons, h, Nat.not_lt.mpr h]
    · simp [consensusLoop, ih, List.filter_cons, h, Nat.not_le.mp h]

lemma agreementCount_build (e : ConsensusEngine) (c : List Finding) :
    agreementCount (build_consensus_finding e c) = c.length := by
  cases c with
  | nil => rfl
  | cons f rest => rfl

lemma stats_total (e : ConsensusEngine) (rs : List AgentResult) :
    (build_consensus e rs).statistics.total_findings
      = (taggedFindings rs).length := rfl

lemma stats_consensus (e : ConsensusEngine) (rs : List AgentResult) :
    (build_consensus e rs).statistics.consensus_count
      = (build_consensus e rs).consensus_findings.length := rfl

lemma stats_rejected (e : ConsensusEngine) (rs : List AgentResult) :
    (build_consensus e rs).statistics.rejected_count
      = (build_consensus e rs).rejected_findings.length := rfl

lemma build_consensus_consensus (e : ConsensusEngine) (rs : List AgentResult) :
    (build_consensus e rs).consensus_findings
      = ((cluster_findings e (taggedFindings rs)).filter
          (fun c => decide (e.min_agreement ≤ c.length))).map
          (build_consensus_finding e) := by
  simp [build_consensus, consensusLoop_spec]

lemma build_consensus_rejected (e : ConsensusEngine) (rs : List AgentResult) :
    (build_consensus e rs).rejected_findings
      = ((cluster_findings e (taggedFindings rs)).filter
          (fun c => decide (c.length < e.min_agreement))).flatMap
          (fun c => c.map (markRejected c.length)) := by
  simp [build_consensus, consensusLoop_spec]

lemma sum_map_filter_add {α : Type} (p : α → Bool) (g : α → ℕ) :
    ∀ l : List α,
      ((l.filter p).map g).sum + ((l.filter (fun a => !(p a))).map g).sum
        = (l.map g).sum
  | [] => rfl
  | a :: l => by
    have ih := sum_map_filter_add p g l
    cases h : p a <;> simp [List.filter_cons, h] <;> omega

lemma decide_lt_eq_not_le (m k : ℕ) : decide (k < m) = !decide (m ≤ k) := by
  by_cases h : m ≤ k
  · simp [h, Nat.not_lt.mpr h]
  · simp [h, Nat.lt_of_not_le h]

/-- C7: a cluster whose size is strictly below `min_agreement` produces no
consensus finding (the consensus list comes only from clusters meeting the
threshold) and contributes exactly one rejected finding per member, marked
with the reason built from the actual cluster size; for a singleton cluster
that reason reads "Only 1 agent(s) agreed". -/
theorem C7_small_clusters_rejected (e : ConsensusEngine) (rs : List AgentResult) :
    (build_consensus e rs).rejected_findings
      = ((cluster_findings e (taggedFindings rs)).filter
          (fun c => decide (c.length < e.min_agreement))).flatMap
          (fun c => c.map (markRejected c.length)) ∧
    (build_consensus e rs).consensus_findings
      = ((cluster_findings e (taggedFindings rs)).filter
          (fun c => decide (e.min_agreement ≤ c.length))).map
          (build_consensus_finding e) ∧
    rejectionReason 1 = "Only 1 agent(s) agreed" :=
  ⟨build_consensus_rejected e rs, build_consensus_consensus e rs, rfl⟩

lemma sum_agreement_eq (e : ConsensusEngine) (rs : List AgentResult) :
    ((build_consensus e rs).consensus_findings.map agreementCount).sum
      = (((cluster_findings e (taggedFindings rs)).filter
          (fun c => decide (e.min_agreement ≤ c.length))).map List.length).sum := by
  rw [build_consensus_consensus, List.map_map]
  congr 1
  apply List.map_congr_left
  intro c _
  exact agreementCount_build e c

lemma rejected_count_eq (e : ConsensusEngine) (rs : List AgentResult) :
    (build_consensus e rs).statistics.rejected_count
      = (((cluster_findings e (taggedFindings rs)).filter
          (fun c => decide (c.length < e.min_agreement))).map List.length).sum := by
  rw [stats_rejected, build_consensus_rejected, List.flatMap_def,
    List.length_flatten, List.map_map]
  congr 1
  apply List.map_congr_left
  intro c _
  simp

lemma total_count_eq (e : ConsensusEngine) (rs : List AgentResult) :
    (build_consensus e rs).statistics.total_findings
      = ((cluster_findings e (taggedFindings rs)).map List.length).sum := by
  rw [stats_total]
  have h := (cluster_findings_flatten_perm e (taggedFindings rs)).length_eq
  rw [List.length_flatten] at h
  exact h.symm

/-- C1 counterexample: one agent reporting two findings in the same file at
lines 1 and 2 forms one cluster of size 2, which meets the default
threshold, so the statistics are total_findings = 2, consensus_count = 1,
rejected_count = 0, and consensus_count + rejected_count ≠ total_findings. -/
theorem C1_counterexample :
    ¬ ((build_consensus ⟨2, 17/20⟩
          [⟨some "a",
            [⟨"", none, [], some ⟨some "x.py", some 1, none⟩, none, none, none, none⟩,
             ⟨"", none, [], some ⟨some "x.py", some 2, none⟩, none, none, none, none⟩]⟩]).statistics.consensus_count
        + (build_consensus ⟨2, 17/20⟩
          [⟨some "a",
            [⟨"", none, [], some ⟨some "x.py", some 1, none⟩, none, none, none, none⟩,
             ⟨"", none, [], some ⟨some "x.py", some 2, none⟩, none, none, none, none⟩]⟩]).statistics.rejected_count
        = (build_consensus ⟨2, 17/20⟩
          [⟨some "a",
            [⟨"", none, [], some ⟨some "x.py", some 1, none⟩, none, none, none, none⟩,
             ⟨"", none, [], some ⟨some "x.py", some 2, none⟩, none, none, none, none⟩]⟩]).statistics.total_findings) := by
  decide

/-- C1 amended: a consensus finding stands for its whole cluster, so the
identity that holds for every input is that the sum of the
`agreement_count` values of the consensus findings plus `rejected_count`
equals `total_findings`; the bare count `consensus_count` undercounts each
cluster of size ≥ 2 it represents. -/
theorem C1_accounting (e : ConsensusEngine) (rs : List AgentResult) :
    ((build_consensus e rs).consensus_findings.map agreementCount).sum
      + (build_consensus e rs).statistics.rejected_count
      = (build_consensus e rs).statistics.total_findings := by
  rw [sum_agreement_eq, rejected_count_eq, total_count_eq]
  have hfc : (cluster_findings e (taggedFindings rs)).filter
        (fun c => decide (c.length < e.min_agreement))
      = (cluster_findings e (taggedFindings rs)).filter
        (fun c => !(decide (e.min_agreement ≤ c.length))) :=
    List.filter_congr (fun c _ => decide_lt_eq_not_le e.min_agreement c.length)
  rw [hfc]
  exact sum_map_filter_add _ _ _

/-! ## Threshold monotonicity and unused parameters -/

lemma innerScan_engine (e1 e2 : ConsensusEngine) : innerScan e1 = innerScan e2 := rfl

lemma clusterAux_engine (e1 e2 : ConsensusEngine) (fs : List Finding) :
    ∀ outer used, clusterAux e1 fs outer used = clusterAux e2 fs outer used
  | [], _ => rfl
  | i :: rest, used => by
    have ih := clusterAux_engine e1 e2 fs rest
    simp only [clusterAux, innerScan_engine e1 e2, ih]

lemma cluster_findings_engine (e1 e2 : ConsensusEngine) (fs : List Finding) :
    cluster_findings e1 fs = cluster_findings e2 fs := by
  unfold cluster_findings clusterIndices
  rw [clusterAux_engine e1 e2]

lemma length_filter_mono {α : Type} (p q : α → Bool)
    (h : ∀ a, p a = true → q a = true) :
    ∀ l : List α, (l.filter p).length ≤ (l.filter q).length
  | [] => le_refl _
  | a :: l => by
    have ih := length_filter_mono p q h l
    cases hp : p a
    · cases hq : q a <;> simp [List.filter_cons, hp, hq] <;> omega
    · have hq := h a hp
      simp only [List.filter_cons, hp, hq, if_pos, List.length_cons]
      omega

lemma sum_map_filter_mono {α : Type} (p q : α → Bool) (g : α → ℕ)
    (h : ∀ a, p a = true → q a = true) :
    ∀ l : List α, ((l.filter p).map g).sum ≤ ((l.filter q).map g).sum
  | [] => le_refl _
  | a :: l => by
    have ih := sum_map_filter_mono p q g h l
    cases hp : p a
    · cases hq : q a <;> simp [List.filter_cons, hp, hq] <;> omega
    · have hq := h a hp
      simp only [List.filter_cons, hp, hq, if_pos, List.map_cons, List.sum_cons]
      omega

/-- C5: for a fixed input and fixed similarity parameters, raising
`min_agreement` from `m1` to `m2 ≥ m1` never increases `consensus_count`
and never decreases `rejected_count`. -/
theorem C5_threshold_monotone (st : ℚ) (rs : List AgentResult) (m1 m2 : ℕ)
    (h : m1 ≤ m2) :
    (build_consensus ⟨m2, st⟩ rs).statistics.consensus_count
        ≤ (build_consensus ⟨m1, st⟩ rs).statistics.consensus_count ∧
    (build_consensus ⟨m1, st⟩ rs).statistics.rejected_count
        ≤ (build_consensus ⟨m2, st⟩ rs).statistics.rejected_count := by
  constructor
  · rw [stats_consensus, stats_consensus, build_consensus_consensus,
      build_consensus_consensus, List.length_map, List.length_map,
      cluster_findings_engine ⟨m2, st⟩ ⟨m1, st⟩]
    apply length_filter_mono
    intro c hc
    rw [decide_eq_true_eq] at hc ⊢
    exact le_trans h hc
  · rw [rejected_count_eq, rejected_count_eq,
      cluster_findings_engine ⟨m1, st⟩ ⟨m2, st⟩]
    apply sum_map_filter_mono
    intro c hc
    rw [decide_eq_true_eq] at hc ⊢
    exact lt_of_lt_of_le hc h

/-- Witness for C5: a single unclustered finding, thresholds 1 and 2. -/
theorem C5_threshold_monotone_witness :
    (1 : ℕ) ≤ 2 ∧
      ((build_consensus ⟨2, 17/20⟩
            [⟨some "a", [⟨"", none, [], none, none, none, none, none⟩]⟩]).statistics.consensus_count
          ≤ (build_consensus ⟨1, 17/20⟩
            [⟨some "a", [⟨"", none, [], none, none, none, none, none⟩]⟩]).statistics.consensus_count ∧
        (build_consensus ⟨1, 17/20⟩
            [⟨some "a", [⟨"", none, [], none, none, none, none, none⟩]⟩]).statistics.rejected_count
          ≤ (build_consensus ⟨2, 17/20⟩
            [⟨some "a", [⟨"", none, [], none, none, none, none, none⟩]⟩]).statistics.rejected_count) :=
  ⟨by decide,
    C5_threshold_monotone (17/20)
      [⟨some "a", [⟨"", none, [], none, none, none, none, none⟩]⟩] 1 2 (by decide)⟩

lemma build_consensus_finding_engine (e1 e2 : ConsensusEngine) :
    build_consensus_finding e1 = build_consensus_finding e2 := rfl

lemma consensusLoop_ma (ma : ℕ) (s1 s2 : ℚ) :
    ∀ cl, consensusLoop ⟨ma, s1⟩ cl = consensusLoop ⟨ma, s2⟩ cl
  | [] => rfl
  | c :: rest => by
    have ih := consensusLoop_ma ma s1 s2 rest
    simp only [consensusLoop, ih, build_consensus_finding_engine ⟨ma, s1⟩ ⟨ma, s2⟩]

/-- C9: the `similarity_threshold` constructor parameter is dead: with the
same `min_agreement` and the same input, engines built with different
`similarity_threshold` values return identical `build_consensus` results
(the similarity checks only use the fixed literals 0.5, 5 and 3). -/
theorem C9_similarity_threshold_unused (ma : ℕ) (s1 s2 : ℚ)
    (rs : List AgentResult) :
    build_consensus ⟨ma, s1⟩ rs = build_consensus ⟨ma, s2⟩ rs := by
  simp only [build_consensus, cluster_findings_engine ⟨ma, s1⟩ ⟨ma, s2⟩,
    consensusLoop_ma ma s1 s2]

/-! ## Empty input -/

lemma taggedFindings_nil (rs : List AgentResult)
    (h : ∀ r ∈ rs, r.findings = []) : taggedFindings rs = [] := by
  induction rs with
  | nil => rfl
  | cons r rest ih =>
    have h1 := h r (List.mem_cons_self r rest)
    have h2 : taggedFindings rest = [] :=
      ih (fun x hx => h x (List.mem_cons_of_mem _ hx))
    simp only [taggedFindings] at h2 ⊢
    rw [List.flatMap_cons]
    simp [h1, h2]

/-- C8: with no reviewer records at all, or when every reviewer contributes
zero findings, `build_consensus` returns normally with `total_agents` equal
to the number of reviewer records, empty consensus and rejected lists, and
all three statistics equal to zero. -/
theorem C8_empty_input (e : ConsensusEngine) (rs : List AgentResult)
    (h : ∀ r ∈ rs, r.findings = []) :
    build_consensus e rs = ⟨[], [], rs.length, e.min_agreement, ⟨0, 0, 0⟩⟩ := by
  unfold build_consensus
  rw [taggedFindings_nil rs h]
  rfl

/-- Witness for C8: one reviewer record with an empty findings list. -/
theorem C8_empty_input_witness :
    (∀ r ∈ [(⟨some "a", []⟩ : AgentResult)], r.findings = ([] : List Finding)) ∧
      build_consensus ⟨2, 17/20⟩ [⟨some "a", []⟩] = ⟨[], [], 1, 2, ⟨0, 0, 0⟩⟩ :=
  ⟨by decide, C8_empty_input ⟨2, 17/20⟩ [⟨some "a", []⟩] (by decide)⟩

/-! ## Consensus finding synthesis -/

lemma pyMaxAux_spec (l : List Finding) : ∀ best : Finding,
    (pyMaxAux best l = best ∧ ∀ g ∈ l, g.conf ≤ best.conf) ∨
    (∃ l1 f l2, l = l1 ++ f :: l2 ∧ pyMaxAux best l = f ∧ best.conf < f.conf ∧
      (∀ g ∈ l1, g.conf < f.conf) ∧ (∀ g ∈ l2, g.conf ≤ f.conf)) := by
  induction l with
  | nil => exact fun best => Or.inl ⟨rfl, by simp⟩
  | cons f rest ih =>
    intro best
    by_cases hc : best.conf < f.conf
    · have heq : pyMaxAux best (f :: rest) = pyMaxAux f rest := by
        simp [pyMaxAux, hc]
      rcases ih f with ⟨h1, h2⟩ | ⟨l1, g, l2, hsplit, hres, hlt, hl1, hl2⟩
      · exact Or.inr ⟨[], f, rest, rfl, by rw [heq, h1], hc, by simp, h2⟩
      · refine Or.inr ⟨f :: l1, g, l2, by simp [hsplit], by rw [heq, hres],
          lt_trans hc hlt, ?_, hl2⟩
        intro x hx
        rcases List.mem_cons.mp hx with hxf | hxl1
        · exact hxf ▸ hlt
        · exact hl1 x hxl1
    · have heq : pyMaxAux best (f :: rest) = pyMaxAux best rest := by
        simp [pyMaxAux, hc]
      have hfb : f.conf ≤ best.conf := le_of_not_lt hc
      rcases ih best with ⟨h1, h2⟩ | ⟨l1, g, l2, hsplit, hres, hlt, hl1, hl2⟩
      · refine Or.inl ⟨by rw [heq, h1], ?_⟩
        intro x hx
        rcases List.mem_cons.mp hx with hxf | hxr
        · exact hxf ▸ hfb
        · exact h2 x hxr
      · refine Or.inr ⟨f :: l1, g, l2, by simp [hsplit], by rw [heq, hres], hlt, ?_, hl2⟩
        intro x hx
        rcases List.mem_cons.mp hx with hxf | hxl1
        · exact hxf ▸ lt_of_le_of_lt hfb hlt
        · exact hl1 x hxl1

/-- C3: for a non-empty cluster, `_build_consensus_finding` returns a copy
of the cluster member with the highest confidence (missing confidences read
as 0.5; on ties the first-encountered member in scan order wins, witnessed
by the decomposition `l1 ++ base :: l2` with every member of `l1` strictly
below the maximum), with `consensus_info` recording the contributing
reviewer identifiers in cluster order, `agreement_count` the cluster size,
`consensus_confidence` the mean confidence rounded to two decimals, and
`verified` true. -/
theorem C3_build_consensus_finding_spec (e : ConsensusEngine) (hd : Finding)
    (tl : List Finding) :
    ∃ base l1 l2,
      hd :: tl = l1 ++ base :: l2 ∧
      (∀ g ∈ hd :: tl, g.conf ≤ base.conf) ∧
      (∀ g ∈ l1, g.conf < base.conf) ∧
      build_consensus_finding e (hd :: tl) =
        { base with
          consensus_info := some
            { source_agents := (hd :: tl).map (fun g => g.source_agent)
              agreement_count := (hd :: tl).length
              consensus_confidence :=
                round2 (((hd :: tl).map Finding.conf).sum / ((hd :: tl).length : ℚ))
              verified := true } } := by
  rcases pyMaxAux_spec tl hd with ⟨h1, h2⟩ | ⟨l1, f, l2, hsplit, hres, hlt, hl1, hl2⟩
  · refine ⟨hd, [], tl, by simp, ?_, by simp, ?_⟩
    · intro g hg
      rcases List.mem_cons.mp hg with h | h
      · exact h ▸ le_refl _
      · exact h2 g h
    · simp [build_consensus_finding, h1]
  · refine ⟨f, hd :: l1, l2, by simp [hsplit], ?_, ?_, ?_⟩
    · intro g hg
      rcases List.mem_cons.mp hg with h | h
      · exact h ▸ le_of_lt hlt
      · rw [hsplit] at h
        rcases List.mem_append.mp h with h | h
        · exact le_of_lt (hl1 g h)
        · rcases List.mem_cons.mp h with h | h
          · exact h ▸ le_refl _
          · exact hl2 g h
    · intro g hg
      rcases List.mem_cons.mp hg with h | h
      · exact h ▸ hlt
      · exact hl1 g h
    · simp [build_consensus_finding, hres]

/-! ## The inputs are mutated, but only in the two engine-written fields -/

lemma strip_markRejected (n : ℕ) (f : Finding) :
    stripEngineFields (markRejected n f) = stripEngineFields f := rfl

lemma strip_postFinding (e : ConsensusEngine) (all : List Finding)
    (clusters : List (List ℕ)) (k : ℕ) :
    stripEngineFields (postFinding e all clusters k)
      = stripEngineFields (all.getD k default) := by
  unfold postFinding
  cases clusters.find?
      (fun c => decide (k ∈ c) && decide (c.length < e.min_agreement)) with
  | none => rfl
  | some c => rfl

lemma postFinding_source (e : ConsensusEngine) (all : List Finding)
    (clusters : List (List ℕ)) (k : ℕ) :
    (postFinding e all clusters k).source_agent
      = (all.getD k default).source_agent := by
  unfold postFinding
  cases clusters.find?
      (fun c => decide (k ∈ c) && decide (c.length < e.min_agreement)) with
  | none => rfl
  | some c => rfl

lemma mem_taggedFindings_source (rs : List AgentResult) :
    ∀ f ∈ taggedFindings rs, ∃ s, f.source_agent = some s := by
  intro f hf
  unfold taggedFindings at hf
  rw [List.mem_flatMap] at hf
  obtain ⟨r, _, hf⟩ := hf
  rw [List.mem_map] at hf
  obtain ⟨g, _, rfl⟩ := hf
  exact ⟨r.agent.getD "unknown", rfl⟩

lemma post_strip (e : ConsensusEngine) (rs : List AgentResult) :
    (build_consensus_post e rs).map stripEngineFields
      = (rs.flatMap (fun r => r.findings)).map stripEngineFields := by
  have hstep1 : (build_consensus_post e rs).map stripEngineFields
      = (taggedFindings rs).map stripEngineFields := by
    simp only [build_consensus_post]
    rw [List.map_map]
    have h2 : (List.range (taggedFindings rs).length).map
        (stripEngineFields ∘
          postFinding e (taggedFindings rs) (clusterIndices e (taggedFindings rs)))
        = (List.range (taggedFindings rs).length).map
          (fun k => stripEngineFields ((taggedFindings rs).getD k default)) :=
      List.map_congr_left (fun k _ => strip_postFinding e _ _ k)
    rw [h2]
    have h3 : (List.range (taggedFindings rs).length).map
        (fun k => stripEngineFields ((taggedFindings rs).getD k default))
        = ((List.range (taggedFindings rs).length).map
            (fun k => (taggedFindings rs).getD k default)).map stripEngineFields := by
      rw [List.map_map]
      rfl
    rw [h3, map_getD_range]
  have hstep2 : (taggedFindings rs).map stripEngineFields
      = (rs.flatMap (fun r => r.findings)).map stripEngineFields := by
    unfold taggedFindings
    rw [List.map_flatMap, List.map_flatMap]
    congr 1
    funext r
    rw [List.map_map]
    rfl
  rw [hstep1, hstep2]

/-- C4 counterexample: one agent "a" with one finding whose `source_agent`
key is absent.  After `build_consensus` runs, that input finding carries
`source_agent = "a"` and a rejection reason, so the post-state of the
inputs differs from the original inputs: the engine does mutate original
findings. -/
theorem C4_counterexample :
    build_consensus_post ⟨2, 17/20⟩
        [⟨some "a", [⟨"", none, [], none, none, none, none, none⟩]⟩]
      ≠ ([⟨some "a", [⟨"", none, [], none, none, none, none, none⟩]⟩]
          : List AgentResult).flatMap (fun r => r.findings) := by
  decide

/-- C4 amended: `build_consensus` is not read-only on its inputs — it
writes `source_agent` into every input finding (and `rejection_reason`
into every member of a below-threshold cluster) — but those are the only
two fields it touches: stripping them, the post-state of the flattened
inputs equals the flattened original inputs, and every post-state finding
carries some reviewer identifier. -/
theorem C4_mutation_frame (e : ConsensusEngine) (rs : List AgentResult) :
    (build_consensus_post e rs).map stripEngineFields
      = (rs.flatMap (fun r => r.findings)).map stripEngineFields ∧
    ∀ f ∈ build_consensus_post e rs, ∃ s, f.source_agent = some s := by
  refine ⟨post_strip e rs, ?_⟩
  intro f hf
  simp only [build_consensus_post, List.mem_map, List.mem_range] at hf
  obtain ⟨k, hk, hpost⟩ := hf
  have hsa : f.source_agent = ((taggedFindings rs).getD k default).source_agent := by
    rw [← hpost]
    exact postFinding_source e _ _ k
  have hmem : (taggedFindings rs).getD k default ∈ taggedFindings rs := by
    rw [List.getD_eq_getElem?_getD, List.getElem?_eq_getElem hk]
    exact List.getElem_mem hk
  obtain ⟨s, hs⟩ := mem_taggedFindings_source rs _ hmem
  exact ⟨s, by rw [hsa, hs]⟩

/-! ## Location-less findings -/

/-- C10 counterexample: two findings whose targets both lack a file path
(`None == None`) but carry distant start lines (0 and 100, distance ≥ 5):
no similarity signal fires and `_are_similar` returns `False`, so missing
file paths alone do not make two findings similar. -/
theorem C10_counterexample :
    (((⟨"", none, [], some ⟨none, some 0, none⟩, none, none, none, none⟩
        : Finding).target.getD default).file_path = none) ∧
    (((⟨"", none, [], some ⟨none, some 100, none⟩, none, none, none, none⟩
        : Finding).target.getD default).file_path = none) ∧
    are_similar ⟨2, 17/20⟩
        ⟨"", none, [], some ⟨none, some 0, none⟩, none, none, none, none⟩
        ⟨"", none, [], some ⟨none, some 100, none⟩, none, none, none, none⟩
      = false := by
  decide

/-- C10 amended: when the targets of both findings carry neither a file path NOR a
start line (in particular when the target is absent altogether), the two
file-path lookups agree on the missing value, both start lines default
to 0, the line distance 0 < 5 makes the location signal fire, and
`_are_similar` returns `True` regardless of categories and descriptions. -/
theorem C10_no_location_similar (e : ConsensusEngine) (f1 f2 : Finding)
    (h1 : (f1.target.getD default).file_path = none)
    (h2 : (f2.target.getD default).file_path = none)
    (h3 : (f1.target.getD default).start_line = none)
    (h4 : (f2.target.getD default).start_line = none) :
    are_similar e f1 f2 = true := by
  unfold are_similar
  have hloc : locSignal f1 f2 = true := by
    unfold locSignal
    rw [h1, h2, h3, h4]
    decide
  rw [hloc]
  simp

/-- Witness for C10 amended: two location-less findings with unrelated
descriptions and categories are judged similar. -/
theorem C10_no_location_similar_witness :
    (((⟨"sql injection", none, ["CWE-89"], none, none, none, none, none⟩
        : Finding).target.getD default).file_path = none ∧
     ((⟨"xss", none, ["CWE-79"], none, none, none, none, none⟩
        : Finding).target.getD default).file_path = none ∧
     ((⟨"sql injection", none, ["CWE-89"], none, none, none, none, none⟩
        : Finding).target.getD default).start_line = none ∧
     ((⟨"xss", none, ["CWE-79"], none, none, none, none, none⟩
        : Finding).target.getD default).start_line = none) ∧
    are_similar ⟨2, 17/20⟩
        ⟨"sql injection", none, ["CWE-89"], none, none, none, none, none⟩
        ⟨"xss", none, ["CWE-79"], none, none, none, none, none⟩ = true :=
  ⟨⟨rfl, rfl, rfl, rfl⟩,
    C10_no_location_similar ⟨2, 17/20⟩ _ _ rfl rfl rfl rfl⟩
